import Mathlib

/-!
# Verification of the Phase Terraform provider against its specification

Shallow embedding of `internal/provider/provider.go` and
`internal/provider/network.go` (current version: the one whose `PhaseClient`
carries a `TokenType` field and whose requests go through `setHeaders`).

Go strings are modelled as `List Char` where the code inspects their
characters (token parsing, substring tests) and as Lean `String` where they
are opaque scalars (keys, paths, hosts, error messages).  Go `nil` slices and
pointers become `Option`; fallible calls become `Except`; the remote HTTP
environment (transport results, response bodies, JSON decoding) is passed in
as explicit data.
-/

namespace Phase

/-! ## Character-level string helpers (Go `strings` package semantics) -/

/-- Model of `strings.Split(s, ":")` on a single-character separator, Go semantics:
splitting the empty string yields one empty field, and the result always has
one more field than there are separators. -/
def splitOnChar (sep : Char) : List Char → List (List Char)
  | [] => [[]]
  | c :: cs =>
    let r := splitOnChar sep cs
    if c = sep then [] :: r
    else
      match r with
      | [] => [[c]]
      | f :: rest => (c :: f) :: rest

/-- Predicate `listPrefix needle hay`: holds when `needle` is a prefix of `hay`. -/
def listPrefix : List Char → List Char → Bool
  | [], _ => true
  | _ :: _, [] => false
  | a :: as, b :: bs => a == b && listPrefix as bs

/-- Model of `strings.Contains(hay, needle)`: `needle` occurs contiguously in `hay`. -/
def containsSub (needle : List Char) : List Char → Bool
  | [] => needle.isEmpty
  | c :: rest => listPrefix needle (c :: rest) || containsSub needle rest

/-- Model of `strings.Join(parts, ",")`. -/
def joinComma : List String → String
  | [] => ""
  | [x] => x
  | x :: xs => x ++ "," ++ joinComma xs

/-! ## Token patterns (`PssServicePattern`, `PssUserPattern`)

The source patterns are the anchored regexes
`^pss_service:v(\d+):([a-fA-F0-9]{64}):([a-fA-F0-9]{64}):([a-fA-F0-9]{64}):([a-fA-F0-9]{64})$`
and likewise with scheme `pss_user`.  Since no sub-pattern can contain a
colon, a whole-string match is equivalent to: splitting on `:` yields exactly
six fields of the required shapes.  That equivalence against the raw string
is proved below (`PssServicePattern_of_parts` and its converse). -/

/-- Pattern `\d`: an ASCII digit. -/
def isDigitChar (c : Char) : Bool := 48 ≤ c.toNat && c.toNat ≤ 57

/-- Pattern `[a-fA-F0-9]`: an ASCII hexadecimal digit. -/
def isHexChar (c : Char) : Bool :=
  isDigitChar c || (97 ≤ c.toNat && c.toNat ≤ 102) || (65 ≤ c.toNat && c.toNat ≤ 70)

/-- Pattern `[a-fA-F0-9]\x7b64\x7d`: a 64-character hexadecimal field. -/
def isHex64 (f : List Char) : Bool := f.length == 64 && f.all isHexChar

/-- Pattern `v(\d+)`: the version field, a `v` followed by one or more digits. -/
def isVersionField (f : List Char) : Bool :=
  match f with
  | c :: ds => c == 'v' && !ds.isEmpty && ds.all isDigitChar
  | [] => false

/-- Model of `PssServicePattern.MatchString`. -/
def PssServicePattern (s : List Char) : Bool :=
  match splitOnChar ':' s with
  | [s0, s1, f2, f3, f4, f5] =>
    s0 == "pss_service".data && isVersionField s1 &&
      isHex64 f2 && isHex64 f3 && isHex64 f4 && isHex64 f5
  | _ => false

/-- Model of `PssUserPattern.MatchString`. -/
def PssUserPattern (s : List Char) : Bool :=
  match splitOnChar ':' s with
  | [s0, s1, f2, f3, f4, f5] =>
    s0 == "pss_user".data && isVersionField s1 &&
      isHex64 f2 && isHex64 f3 && isHex64 f4 && isHex64 f5
  | _ => false

/-! ## `extractTokenInfo` (provider.go) -/

/-- The user-token and fallback tail of `extractTokenInfo` (the code after
the service-token `if` block falls through to here). -/
def extractTokenInfoUser (phaseToken : List Char) : String × List Char :=
  if PssUserPattern phaseToken then
    let parts := splitOnChar ':' phaseToken
    if 3 ≤ parts.length then ("User", parts.getD 2 [])
    else ("", phaseToken)
  else ("", phaseToken)

/-- Function `extractTokenInfo`: classify a credential string into a token kind and a
bearer value.  Returns `(tokenType, bearerToken)`. -/
def extractTokenInfo (phaseToken : List Char) : String × List Char :=
  if PssServicePattern phaseToken then
    let parts := splitOnChar ':' phaseToken
    if 3 ≤ parts.length then
      if parts.getD 1 [] = "v2".data then ("ServiceAccount", parts.getD 2 [])
      else ("Service", parts.getD 2 [])
    else extractTokenInfoUser phaseToken
  else extractTokenInfoUser phaseToken

/-! ## Provider configuration (`providerConfigure`, `DefaultHostURL`) -/

/-- Constant `DefaultHostURL`. -/
def DefaultHostURL : String := "https://api.phase.dev"

/-- The client record built by `providerConfigure`. -/
structure PhaseClient where
  hostURL : String
  token : List Char
  tokenType : String
  skipTLSVerification : Bool
deriving DecidableEq

/-- Function `providerConfigure`: resolve the host (appending `/service/public` to any
non-default host) and the token, and build the client. -/
def providerConfigure (host : String) (phaseToken : List Char)
    (skipTLSVerification : Bool) : PhaseClient :=
  let host := if host ≠ DefaultHostURL then host ++ "/service/public" else host
  let ti := extractTokenInfo phaseToken
  { hostURL := host, token := ti.2, tokenType := ti.1,
    skipTLSVerification := skipTLSVerification }

/-! ## Data model (`Secret`, `SecretOverride`) -/

/-- Struct `SecretOverride`. -/
structure SecretOverride where
  id : String
  value : String
  isActive : Bool
deriving DecidableEq

/-- Struct `Secret`.  Go `nil` slices / pointers are `none`. -/
structure Secret where
  id : String
  key : String
  value : String
  comment : String
  path : String
  tags : Option (List String)
  version : Int
  createdAt : String
  updatedAt : String
  override : Option SecretOverride
deriving DecidableEq

/-! ## HTTP client operations (network.go)

Each operation is a function of the secrets API's behaviour on this request,
supplied as explicit data: the transport either errors or delivers a response
with a status and a body; reading the body (`io.ReadAll`) may fail; JSON
decoding of the raw bytes (`json.Unmarshal` into `[]Secret`) either fails
with a message or yields a list of secrets. -/

instance {ε α : Type} [DecidableEq ε] [DecidableEq α] : DecidableEq (Except ε α) := fun a b =>
  match a, b with
  | .ok x, .ok y =>
    if h : x = y then .isTrue (congrArg Except.ok h)
    else .isFalse (fun c => h (Except.ok.inj c))
  | .error x, .error y =>
    if h : x = y then .isTrue (congrArg Except.error h)
    else .isFalse (fun c => h (Except.error.inj c))
  | .ok _, .error _ => .isFalse (fun c => Except.noConfusion c)
  | .error _, .ok _ => .isFalse (fun c => Except.noConfusion c)

/-- A response body: the raw bytes together with the result of unmarshalling
them as a JSON array of secrets. -/
structure BodyData where
  raw : String
  parsed : Except String (List Secret)
deriving DecidableEq

/-- Outcome of `c.HTTPClient.Do(req)` followed by `io.ReadAll(resp.Body)`. -/
inductive DoResult where
  | transportErr (msg : String)
  | resp (statusCode : Nat) (status : String) (bodyRead : Except String BodyData)
deriving DecidableEq

/-- The distinct error values a client operation can return; each constructor
corresponds to one `return nil, ...` error site and carries the Go error
message. -/
inductive ClientError where
  | transport (msg : String)
  | bodyRead (msg : String)
  | api (msg : String)
  | decode (msg : String)
  | emptyResult (msg : String)
deriving DecidableEq

/-- The Go `err.Error()` string of a client error. -/
def ClientError.message : ClientError → String
  | .transport m => m
  | .bodyRead m => m
  | .api m => m
  | .decode m => m
  | .emptyResult m => m

/-- Operation `CreateSecret` (network.go): read body, check status, unmarshal, require
a non-empty secret list, return the first secret. -/
def CreateSecret (d : DoResult) : Except ClientError Secret :=
  match d with
  | .transportErr m => .error (.transport m)
  | .resp statusCode status bodyRead =>
    match bodyRead with
    | .error m => .error (.bodyRead ("error reading response body: " ++ m))
    | .ok bd =>
      if statusCode ≠ 200 then .error (.api ("failed to create secret: " ++ status))
      else
        match bd.parsed with
        | .error m => .error (.decode m)
        | .ok [] => .error (.emptyResult "no secret created")
        | .ok (s :: _) => .ok s

/-- Operation `ReadSecret` (network.go): like `CreateSecret` but a GET; an empty
decoded list is the dedicated not-found error. -/
def ReadSecret (d : DoResult) : Except ClientError Secret :=
  match d with
  | .transportErr m => .error (.transport m)
  | .resp statusCode status bodyRead =>
    match bodyRead with
    | .error m => .error (.bodyRead ("error reading response body: " ++ m))
    | .ok bd =>
      if statusCode ≠ 200 then .error (.api ("failed to read secret: " ++ status))
      else
        match bd.parsed with
        | .error m => .error (.decode m)
        | .ok [] => .error (.emptyResult "secret not found")
        | .ok (s :: _) => .ok s

/-- Operation `UpdateSecret` (network.go). -/
def UpdateSecret (d : DoResult) : Except ClientError Secret :=
  match d with
  | .transportErr m => .error (.transport m)
  | .resp statusCode status bodyRead =>
    match bodyRead with
    | .error m => .error (.bodyRead ("error reading response body: " ++ m))
    | .ok bd =>
      if statusCode ≠ 200 then .error (.api ("failed to update secret: " ++ status))
      else
        match bd.parsed with
        | .error m => .error (.decode m)
        | .ok [] => .error (.emptyResult "no secret updated")
        | .ok (s :: _) => .ok s

/-! ## Managed resource (`resourceSecretCreate`, `resourceSecretRead`)

The Terraform `ResourceData` state of a `phase_secret` resource is made
explicit; the remote client is an environment of three response functions
(what `client.CreateSecret` / `ReadSecret` / `UpdateSecret` answer for the
provider-level arguments actually varied by these callbacks), with errors as
the Go `err.Error()` message strings the provider inspects.  `ReadSecret`
answers a list of secrets, as consumed by the provider (`secrets[0]`,
`len(secrets)`). -/

/-- State sub-block `override` (`value`, `is_active`). -/
structure StateOverride where
  value : String
  isActive : Bool
deriving DecidableEq

/-- The attributes of a `phase_secret` resource instance. -/
structure ResourceState where
  id : String
  key : String
  value : String
  comment : String
  path : String
  tags : Option (List String)
  version : Int
  createdAt : String
  updatedAt : String
  override : Option StateOverride
deriving DecidableEq

/-- The client environment for one resource callback: the responses of the
remote API to the calls the callback can make.  `read` is keyed by the secret
key passed to `client.ReadSecret`. -/
structure ClientEnv where
  create : Secret → Except String Secret
  read : String → Except String (List Secret)
  update : Secret → Except String Secret

/-- One client call issued by a resource callback, with its argument. -/
inductive Call where
  | createCall (s : Secret)
  | readCall (key : String)
  | updateCall (s : Secret)
deriving DecidableEq

/-- The `d.Set(...)` block of `resourceSecretRead` applied to the first
returned secret: identifier and scalar fields are copied; `tags` only when
non-nil; the effective `value` and the `override` sub-object follow the
active-override branch. -/
def applySecret (st : ResourceState) (s : Secret) : ResourceState :=
  let base : ResourceState :=
    { st with
      id := s.id, key := s.key, comment := s.comment, path := s.path,
      tags := match s.tags with | some ts => some ts | none => st.tags,
      version := s.version, createdAt := s.createdAt, updatedAt := s.updatedAt }
  match s.override with
  | some o =>
    if o.isActive then
      { base with value := o.value, override := some ⟨o.value, o.isActive⟩ }
    else { base with value := s.value, override := none }
  | none => { base with value := s.value, override := none }

/-- Callback `resourceSecretRead`: read by the declared key; zero secrets is the fatal
`No secrets found` diagnostic; otherwise state is refreshed from the first
secret.  Returns the calls issued and the outcome. -/
def resourceSecretRead (env : ClientEnv) (st : ResourceState) :
    List Call × Except String ResourceState :=
  ([.readCall st.key],
    match env.read st.key with
    | .error e => .error e
    | .ok [] => .error "No secrets found"
    | .ok (s :: _) => .ok (applySecret st s))

/-- The state immediately after `d.SetId(theId)` during create, before the
refresh read: declared attributes plus the freshly set identifier. -/
def declaredState (secret : Secret) (theId : String) : ResourceState :=
  { id := theId, key := secret.key, value := secret.value,
    comment := secret.comment, path := secret.path, tags := secret.tags,
    version := 0, createdAt := "", updatedAt := "",
    override := secret.override.map fun o => ⟨o.value, o.isActive⟩ }

/-- Everything observable about one run of `resourceSecretCreate`: the client
calls issued, the value passed to `d.SetId` (when reached), and the final
diagnostics/state. -/
structure CreateOutcome where
  calls : List Call
  setId : Option String
  result : Except String ResourceState
deriving DecidableEq

/-- Callback `resourceSecretCreate` (lines 205-236 of provider.go): try `CreateSecret`;
on an error containing `409 Conflict`, read the existing secret by the
declared key, update it under the existing identifier, set the resource id
from the update result and refresh; any other create error is fatal. -/
def resourceSecretCreate (env : ClientEnv) (secret : Secret) : CreateOutcome :=
  match env.create secret with
  | .ok createdSecret =>
    let rd := resourceSecretRead env (declaredState secret createdSecret.id)
    ⟨.createCall secret :: rd.1, some createdSecret.id, rd.2⟩
  | .error e =>
    if containsSub "409 Conflict".data e.data then
      match env.read secret.key with
      | .error readErr =>
        ⟨[.createCall secret, .readCall secret.key], none,
          .error ("error reading existing secret: " ++ readErr)⟩
      | .ok [] =>
        ⟨[.createCall secret, .readCall secret.key], none,
          .error ("received 409 Conflict but couldn't find existing secret: " ++ e)⟩
      | .ok (existing :: _) =>
        let secret2 := { secret with id := existing.id }
        match env.update secret2 with
        | .error updateErr =>
          ⟨[.createCall secret, .readCall secret.key, .updateCall secret2], none,
            .error ("error updating existing secret: " ++ updateErr)⟩
        | .ok updatedSecret =>
          let rd := resourceSecretRead env (declaredState secret updatedSecret.id)
          ⟨.createCall secret :: .readCall secret.key :: .updateCall secret2 :: rd.1,
            some updatedSecret.id, rd.2⟩
    else ⟨[.createCall secret], none, .error e⟩

/-! ## Data source (`dataSourceSecretsRead`) -/

/-- Lookup in a Go `map[string]string` modelled as an ordered association
list without duplicate keys. -/
def mapLookup : List (String × String) → String → Option String
  | [], _ => none
  | (k0, v0) :: rest, k => if k = k0 then some v0 else mapLookup rest k

/-- Go map assignment `m[k] = v`: replace the binding if present, else add. -/
def mapInsert : List (String × String) → String → String → List (String × String)
  | [], k, v => [(k, v)]
  | (k0, v0) :: rest, k, v =>
    if k0 = k then (k0, v) :: rest else (k0, v0) :: mapInsert rest k v

/-- One iteration of the secret loop of `dataSourceSecretsRead`: include the
secret when fetching all (`path == ""`) or on an exact path match, binding
the key to the override value when an override is active, the base value
otherwise. -/
def dataSourceStep (path : String) (m : List (String × String)) (s : Secret) :
    List (String × String) :=
  if path = "" ∨ s.path = path then
    match s.override with
    | some o =>
      if o.isActive then mapInsert m s.key o.value else mapInsert m s.key s.value
    | none => mapInsert m s.key s.value
  else m

/-- The `secretMap` built by `dataSourceSecretsRead` from the returned
secrets. -/
def dataSourceMap (path : String) (secrets : List Secret) : List (String × String) :=
  secrets.foldl (dataSourceStep path) []

/-- The `tagsFilter` local: the comma-join of the configured tags when the
list is non-empty, otherwise the empty string. -/
def tagsFilterOf (tags : List String) : String :=
  if tags.isEmpty then "" else joinComma tags

/-- The synthetic identifier `fmt.Sprintf("%s-%s-%s-%s-%s", ...)` set by
`dataSourceSecretsRead`. -/
def dataSourceId (appID env path key tagsFilter : String) : String :=
  appID ++ "-" ++ env ++ "-" ++ path ++ "-" ++ key ++ "-" ++ tagsFilter

/-- Callback `dataSourceSecretsRead`: read (the remote response is passed in as
`readResult`), fail on a read error, otherwise produce the filtered
key-to-effective-value map and the synthetic identifier. -/
def dataSourceSecretsRead (appID env path key : String) (tags : List String)
    (readResult : Except String (List Secret)) :
    Except String (List (String × String) × String) :=
  let tagsFilter := tagsFilterOf tags
  match readResult with
  | .error e => .error e
  | .ok secrets =>
    .ok (dataSourceMap path secrets, dataSourceId appID env path key tagsFilter)

/-! ## Token shapes as string-level propositions

`sixFields` spells out a six-field colon-separated string; the shape
propositions below state, about the raw character string, what the anchored
regexes describe.  They are related to the executable matchers by the
characterization lemmas further down. -/

/-- Six colon-separated fields in sequence. -/
def sixFields (f0 f1 f2 f3 f4 f5 : List Char) : List Char :=
  f0 ++ ':' :: (f1 ++ ':' :: (f2 ++ ':' :: (f3 ++ ':' :: (f4 ++ ':' :: f5))))

/-- Shape: `s` decomposes as a `pss_service` six-field token with `v` a
non-empty digit string and `f2`-`f5` 64-character hex strings. -/
def ServiceParts (s v f2 f3 f4 f5 : List Char) : Prop :=
  s = sixFields "pss_service".data ('v' :: v) f2 f3 f4 f5 ∧
    v ≠ [] ∧ (∀ c ∈ v, isDigitChar c = true) ∧
    isHex64 f2 = true ∧ isHex64 f3 = true ∧ isHex64 f4 = true ∧ isHex64 f5 = true

/-- Shape: `s` decomposes as a `pss_user` six-field token likewise. -/
def UserParts (s v f2 f3 f4 f5 : List Char) : Prop :=
  s = sixFields "pss_user".data ('v' :: v) f2 f3 f4 f5 ∧
    v ≠ [] ∧ (∀ c ∈ v, isDigitChar c = true) ∧
    isHex64 f2 = true ∧ isHex64 f3 = true ∧ isHex64 f4 = true ∧ isHex64 f5 = true

/-- The service-token string shape. -/
def ServiceTokenShape (s : List Char) : Prop :=
  ∃ v f2 f3 f4 f5, ServiceParts s v f2 f3 f4 f5

/-- The user-token string shape. -/
def UserTokenShape (s : List Char) : Prop :=
  ∃ v f2 f3 f4 f5, UserParts s v f2 f3 f4 f5

/-- A 64-character hexadecimal field used by concrete test tokens. -/
def hexA : List Char := List.replicate 64 'a'

/-- A concrete well-formed `v2` service token. -/
def svcTok : List Char := sixFields "pss_service".data ('v' :: ['2']) hexA hexA hexA hexA

/-- A concrete five-field credential (scheme, version and three hex fields):
scheme, `v`+digits version and three 64-hex fields, i.e. fields 3-5 are
64-character hexadecimal strings. -/
def fiveFieldTok : List Char :=
  "pss_service".data ++ ':' :: ("v2".data ++ ':' :: (hexA ++ ':' :: (hexA ++ ':' :: hexA)))

/-- The effective value a read exposes for a secret: the override value when
an active override is present, the base value otherwise. -/
def effectiveValue (s : Secret) : String :=
  match s.override with
  | some o => if o.isActive then o.value else s.value
  | none => s.value

/-! ## Basic lemmas on the string helpers -/

theorem listPrefix_refl (l : List Char) : listPrefix l l = true := by
  induction l with
  | nil => rfl
  | cons c cs ih => simp [listPrefix, ih]

theorem containsSub_append_self (p n : List Char) : containsSub n (p ++ n) = true := by
  induction p with
  | nil =>
    cases n with
    | nil => rfl
    | cons c cs => simp [containsSub, listPrefix_refl]
  | cons c cs ih => simp [containsSub, ih]

theorem joinComma_nil : joinComma [] = "" := rfl

theorem tagsFilterOf_eq_joinComma (tags : List String) :
    tagsFilterOf tags = joinComma tags := by
  cases tags with
  | nil => rfl
  | cons t ts => rfl

/-! ## C8: host resolution -/

/-- C8: `providerConfigure` appends the fixed suffix `/service/public` to any
configured host other than the default cloud endpoint, and leaves the default
endpoint unchanged. -/
theorem providerConfigure_host_spec (host : String) (tok : List Char) (tls : Bool) :
    (host ≠ DefaultHostURL →
      (providerConfigure host tok tls).hostURL = host ++ "/service/public") ∧
    (host = DefaultHostURL → (providerConfigure host tok tls).hostURL = host) := by
  constructor <;> intro h <;> simp [providerConfigure, h]

/-- Witness for C8 at a concrete overridden host and at the default host. -/
theorem providerConfigure_host_spec_witness :
    ("https://phase.example.com" ≠ DefaultHostURL ∧
      (providerConfigure "https://phase.example.com" [] false).hostURL =
        "https://phase.example.com/service/public") ∧
    ((providerConfigure DefaultHostURL [] false).hostURL = DefaultHostURL) :=
  ⟨⟨by decide,
    (providerConfigure_host_spec "https://phase.example.com" [] false).1 (by decide)⟩,
    (providerConfigure_host_spec DefaultHostURL [] false).2 rfl⟩

/-! ## C9: the data-source synthetic identifier -/

/-- C9: on a successful data-source read the identifier is exactly the
`-`-joined concatenation of appID, env, path, key and the comma-joined tag
filter; it is a pure function of those five inputs and does not depend on the
remote response. -/
theorem dataSourceSecretsRead_id_spec (appID env path key : String)
    (tags : List String) (readResult : Except String (List Secret))
    (secrets : List Secret) (h : readResult = .ok secrets) :
    dataSourceSecretsRead appID env path key tags readResult =
      .ok (dataSourceMap path secrets,
        appID ++ "-" ++ env ++ "-" ++ path ++ "-" ++ key ++ "-" ++ tagsFilterOf tags) ∧
    tagsFilterOf tags = joinComma tags ∧
    (∀ other : List Secret,
      dataSourceSecretsRead appID env path key tags (.ok other) =
        .ok (dataSourceMap path other,
          appID ++ "-" ++ env ++ "-" ++ path ++ "-" ++ key ++ "-" ++ tagsFilterOf tags)) ∧
    (∀ a' e' p' k' t' : String, a' = appID → e' = env → p' = path → k' = key →
      t' = tagsFilterOf tags →
      dataSourceId a' e' p' k' t' = dataSourceId appID env path key (tagsFilterOf tags)) := by
  subst h
  refine ⟨rfl, tagsFilterOf_eq_joinComma tags, fun _ => rfl, ?_⟩
  intro a' e' p' k' t' h1 h2 h3 h4 h5
  rw [h1, h2, h3, h4, h5]

/-- Witness for C9 at concrete scoping parameters. -/
theorem dataSourceSecretsRead_id_spec_witness :
    dataSourceSecretsRead "app1" "prod" "/db" "PASS" ["db", "web"] (.ok []) =
      .ok (dataSourceMap "/db" [],
        "app1" ++ "-" ++ "prod" ++ "-" ++ "/db" ++ "-" ++ "PASS" ++ "-" ++
          tagsFilterOf ["db", "web"]) :=
  (dataSourceSecretsRead_id_spec "app1" "prod" "/db" "PASS" ["db", "web"]
    (.ok []) [] rfl).1

/-! ## C10: the synthetic identifier is not injective -/

/-- C10: two distinct scoping tuples whose components contain the separator
`-` produce the same synthetic identifier, so the identifier does not
determine the scope. -/
theorem dataSourceId_not_injective :
    dataSourceId "a-b" "c" "" "" "" = dataSourceId "a" "b-c" "" "" "" ∧
    (("a-b", "c", "", "", "") ≠ (("a", "b-c", "", "", "") :
      String × String × String × String × String)) ∧
    containsSub "-".data "a-b".data = true ∧
    containsSub "-".data "b-c".data = true := by
  refine ⟨rfl, by decide, by decide, by decide⟩

/-! ## C6: the not-found error of `ReadSecret` -/

/-- C6 counterexample: a 2xx (but non-200) response whose body decodes to
zero secrets does NOT yield the not-found error: the status check
`resp.StatusCode != http.StatusOK` rejects 201 before decoding, so the
API-status error is returned instead. -/
theorem ReadSecret_2xx_counterexample :
    ReadSecret (.resp 201 "201 Created" (.ok ⟨"[]", .ok []⟩)) =
      .error (.api "failed to read secret: 201 Created") ∧
    ReadSecret (.resp 201 "201 Created" (.ok ⟨"[]", .ok []⟩)) ≠
      .error (.emptyResult "secret not found") :=
  ⟨rfl, by decide⟩

/-- C6 (amended to 200 OK): a 200 response that decodes to zero secrets
yields the dedicated not-found error, which differs from every transport,
body-read and decode error, so a caller can tell "no secrets exist" from
"request failed". -/
theorem ReadSecret_notFound_distinct (status raw : String) :
    ReadSecret (.resp 200 status (.ok ⟨raw, .ok []⟩)) =
      .error (.emptyResult "secret not found") ∧
    (∀ m, ClientError.emptyResult "secret not found" ≠ .transport m) ∧
    (∀ m, ClientError.emptyResult "secret not found" ≠ .bodyRead m) ∧
    (∀ m, ClientError.emptyResult "secret not found" ≠ .decode m) ∧
    (∀ m, ClientError.emptyResult "secret not found" ≠ .api m) :=
  ⟨rfl, fun _ h => ClientError.noConfusion h, fun _ h => ClientError.noConfusion h,
    fun _ h => ClientError.noConfusion h, fun _ h => ClientError.noConfusion h⟩

/-! ## C7: create/update error reporting -/

/-- C7 counterexample: for a non-success response, the error message of
`CreateSecret` contains the response status but NOT the raw response body
(the body is read into `responseBody` and then discarded on this path). -/
theorem CreateSecret_error_body_counterexample :
    CreateSecret (.resp 409 "409 Conflict" (.ok ⟨"duplicate key within scope", .ok []⟩)) =
      .error (.api "failed to create secret: 409 Conflict") ∧
    containsSub "duplicate key within scope".data
      "failed to create secret: 409 Conflict".data = false :=
  ⟨rfl, by decide⟩

/-- C7 (amended: the message includes the status but not the body): any
non-200 response yields an API error whose message contains the response
status; a 200 response decoding to an empty list yields the distinct
empty-result error (no secret is fabricated).  The same holds for
`UpdateSecret`. -/
theorem CreateUpdateSecret_error_spec (statusCode : Nat) (status raw : String)
    (parsed : Except String (List Secret)) (h : statusCode ≠ 200) :
    CreateSecret (.resp statusCode status (.ok ⟨raw, parsed⟩)) =
      .error (.api ("failed to create secret: " ++ status)) ∧
    containsSub status.data ("failed to create secret: " ++ status).data = true ∧
    CreateSecret (.resp 200 status (.ok ⟨raw, .ok []⟩)) =
      .error (.emptyResult "no secret created") ∧
    (∀ m, ClientError.emptyResult "no secret created" ≠ .api m) ∧
    (∀ m, ClientError.emptyResult "no secret created" ≠ .transport m) ∧
    UpdateSecret (.resp statusCode status (.ok ⟨raw, parsed⟩)) =
      .error (.api ("failed to update secret: " ++ status)) ∧
    containsSub status.data ("failed to update secret: " ++ status).data = true ∧
    UpdateSecret (.resp 200 status (.ok ⟨raw, .ok []⟩)) =
      .error (.emptyResult "no secret updated") := by
  refine ⟨by simp [CreateSecret, h], ?_, rfl,
    fun _ hc => ClientError.noConfusion hc, fun _ hc => ClientError.noConfusion hc,
    by simp [UpdateSecret, h], ?_, rfl⟩
  · rw [String.data_append]
    exact containsSub_append_self _ _
  · rw [String.data_append]
    exact containsSub_append_self _ _

/-- Witness for C7 at a concrete 500 response. -/
theorem CreateUpdateSecret_error_spec_witness :
    CreateSecret (.resp 500 "500 Internal Server Error" (.ok ⟨"boom", .ok []⟩)) =
      .error (.api ("failed to create secret: " ++ "500 Internal Server Error")) :=
  (CreateUpdateSecret_error_spec 500 "500 Internal Server Error" "boom"
    (.ok []) (by decide)).1

/-! ## C1: create falls back to update on 409 conflict -/

/-- C1: when `CreateSecret` fails with an error containing `409 Conflict`,
`resourceSecretCreate` does not surface a fatal error: it reads by the
declared key, updates under the pre-existing identifier with the declared
attributes, sets the resource id from the update result and performs a
refresh read; a create error without `409 Conflict` is surfaced fatally. -/
theorem resourceSecretCreate_conflict_spec (env : ClientEnv) (secret : Secret)
    (e : String) (hc : env.create secret = .error e) :
    (containsSub "409 Conflict".data e.data = false →
      resourceSecretCreate env secret = ⟨[.createCall secret], none, .error e⟩) ∧
    (containsSub "409 Conflict".data e.data = true →
      ∀ existing rest u, env.read secret.key = .ok (existing :: rest) →
        env.update { secret with id := existing.id } = .ok u →
        resourceSecretCreate env secret =
          ⟨[.createCall secret, .readCall secret.key,
              .updateCall { secret with id := existing.id }, .readCall secret.key],
            some u.id, .ok (applySecret (declaredState secret u.id) existing)⟩) := by
  constructor
  · intro h409
    simp [resourceSecretCreate, hc, h409]
  · intro h409 existing rest u hread hupdate
    simp [resourceSecretCreate, hc, h409, hread, hupdate, resourceSecretRead,
      declaredState]

/-- A concrete declared secret used by the C1 witness. -/
def declaredSecretW : Secret :=
  { id := "", key := "K", value := "declared", comment := "", path := "/",
    tags := none, version := 0, createdAt := "", updatedAt := "",
    override := none }

/-- The concrete pre-existing remote secret used by the C1 witness. -/
def existingSecretW : Secret :=
  { id := "old-id", key := "K", value := "remote", comment := "", path := "/",
    tags := none, version := 3, createdAt := "", updatedAt := "",
    override := none }

/-- A concrete client environment whose create answers a 409 conflict, whose
read finds the pre-existing secret and whose update succeeds. -/
def conflictEnvW : ClientEnv :=
  { create := fun _ => .error "failed to create secret: 409 Conflict",
    read := fun _ => .ok [existingSecretW],
    update := fun s => .ok s }

/-- Witness for C1: in the concrete conflict environment the outcome is the
converged (non-fatal) one with the pre-existing identifier. -/
theorem resourceSecretCreate_conflict_spec_witness :
    resourceSecretCreate conflictEnvW declaredSecretW =
      ⟨[.createCall declaredSecretW, .readCall "K",
          .updateCall { declaredSecretW with id := "old-id" }, .readCall "K"],
        some "old-id",
        .ok (applySecret (declaredState declaredSecretW "old-id") existingSecretW)⟩ :=
  (resourceSecretCreate_conflict_spec conflictEnvW declaredSecretW
      "failed to create secret: 409 Conflict" rfl).2 (by decide)
      existingSecretW [] { declaredSecretW with id := "old-id" } rfl rfl

/-! ## C4: override precedence on reads -/

theorem dataSourceStep_included (path : String) (m : List (String × String))
    (s : Secret) (h : path = "" ∨ s.path = path) :
    dataSourceStep path m s = mapInsert m s.key (effectiveValue s) := by
  unfold dataSourceStep effectiveValue
  rw [if_pos h]
  cases s.override with
  | none => rfl
  | some o => cases ho : o.isActive <;> simp [ho]

/-- C4: whenever the first secret a read returns carries an active override,
the resource read exposes the override value and populates the override
sub-object; when the override is inactive or absent the base value is
exposed and the sub-object is cleared.  The data source binds each included
secret's key to the same effective value, which equals the override value
exactly when the override is active. -/
theorem overridePrecedence_spec (env : ClientEnv) (st : ResourceState)
    (s : Secret) (rest : List Secret) (h : env.read st.key = .ok (s :: rest)) :
    ((resourceSecretRead env st).2 = .ok (applySecret st s)) ∧
    (∀ o, s.override = some o → o.isActive = true →
      (applySecret st s).value = o.value ∧
      (applySecret st s).override = some ⟨o.value, true⟩) ∧
    (∀ o, s.override = some o → o.isActive = false →
      (applySecret st s).value = s.value ∧ (applySecret st s).override = none) ∧
    (s.override = none →
      (applySecret st s).value = s.value ∧ (applySecret st s).override = none) ∧
    (∀ path m, (path = "" ∨ s.path = path) →
      dataSourceStep path m s = mapInsert m s.key (effectiveValue s)) ∧
    (∀ o, s.override = some o → o.isActive = true → effectiveValue s = o.value) ∧
    (∀ o, s.override = some o → o.isActive = false → effectiveValue s = s.value) ∧
    (s.override = none → effectiveValue s = s.value) := by
  refine ⟨?_, ?_, ?_, ?_, fun path m hp => dataSourceStep_included path m s hp,
    ?_, ?_, ?_⟩
  · simp [resourceSecretRead, h]
  · intro o ho ha
    simp [applySecret, ho, ha]
  · intro o ho ha
    simp [applySecret, ho, ha]
  · intro ho
    simp [applySecret, ho]
  · intro o ho ha
    simp [effectiveValue, ho, ha]
  · intro o ho ha
    simp [effectiveValue, ho, ha]
  · intro ho
    simp [effectiveValue, ho]

/-- A secret with an active override, for the C4 witness. -/
def overriddenSecretW : Secret :=
  { id := "sid", key := "K", value := "base", comment := "", path := "/",
    tags := none, version := 1, createdAt := "", updatedAt := "",
    override := some { id := "", value := "personal", isActive := true } }

/-- A client environment returning the overridden secret, for C4. -/
def overrideEnvW : ClientEnv :=
  { create := fun s => .ok s, read := fun _ => .ok [overriddenSecretW],
    update := fun s => .ok s }

/-- A resource state with key `K`, for the C4 witness. -/
def stateW : ResourceState :=
  { id := "", key := "K", value := "", comment := "", path := "/",
    tags := none, version := 0, createdAt := "", updatedAt := "",
    override := none }

/-- Witness for C4: with an active override the resource read exposes the
override value, and the data source binds the key to it too. -/
theorem overridePrecedence_spec_witness :
    ((resourceSecretRead overrideEnvW stateW).2 =
      .ok (applySecret stateW overriddenSecretW)) ∧
    (applySecret stateW overriddenSecretW).value = "personal" ∧
    dataSourceStep "/" [] overriddenSecretW =
      mapInsert [] "K" (effectiveValue overriddenSecretW) ∧
    effectiveValue overriddenSecretW = "personal" :=
  ⟨(overridePrecedence_spec overrideEnvW stateW overriddenSecretW [] rfl).1,
    ((overridePrecedence_spec overrideEnvW stateW overriddenSecretW [] rfl).2.1
      ⟨"", "personal", true⟩ rfl rfl).1,
    (overridePrecedence_spec overrideEnvW stateW overriddenSecretW [] rfl).2.2.2.2.1
      "/" [] (Or.inr rfl),
    (overridePrecedence_spec overrideEnvW stateW overriddenSecretW [] rfl).2.2.2.2.2.1
      ⟨"", "personal", true⟩ rfl rfl⟩

/-! ## C5: data-source path filtering -/

theorem mapLookup_mapInsert (m : List (String × String)) (k v k' : String) :
    mapLookup (mapInsert m k v) k' = if k' = k then some v else mapLookup m k' := by
  induction m with
  | nil => simp [mapInsert, mapLookup]
  | cons p rest ih =>
    obtain ⟨k0, v0⟩ := p
    by_cases h0 : k0 = k
    · subst h0
      by_cases h' : k' = k0 <;> simp [mapInsert, mapLookup, h']
    · by_cases h' : k' = k0
      · subst h'
        simp [mapInsert, mapLookup, h0]
      · simp [mapInsert, mapLookup, h0, h', ih]

theorem mapLookup_dataSourceStep (path : String) (m : List (String × String))
    (s : Secret) (k : String) :
    mapLookup (dataSourceStep path m s) k =
      if (path = "" ∨ s.path = path) ∧ k = s.key then some (effectiveValue s)
      else mapLookup m k := by
  by_cases hp : path = "" ∨ s.path = path
  · rw [dataSourceStep_included path m s hp, mapLookup_mapInsert]
    by_cases hk : k = s.key <;> simp [hk, hp]
  · unfold dataSourceStep
    rw [if_neg hp]
    simp [hp]

theorem mapLookup_foldl_isSome_iff (path k : String) (secrets : List Secret)
    (m : List (String × String)) :
    (mapLookup (List.foldl (dataSourceStep path) m secrets) k).isSome ↔
      (mapLookup m k).isSome ∨
        ∃ s ∈ secrets, (path = "" ∨ s.path = path) ∧ s.key = k := by
  induction secrets generalizing m with
  | nil => simp
  | cons s rest ih =>
    rw [List.foldl_cons, ih]
    rw [mapLookup_dataSourceStep]
    by_cases hc : (path = "" ∨ s.path = path) ∧ k = s.key
    · simp only [if_pos hc]
      simp only [Option.isSome_some, true_or, true_iff]
      exact Or.inr ⟨s, List.mem_cons_self s rest, hc.1, hc.2.symm⟩
    · simp only [if_neg hc]
      constructor
      · rintro (hm | ⟨t, ht, hpt, hkt⟩)
        · exact Or.inl hm
        · exact Or.inr ⟨t, List.mem_cons_of_mem s ht, hpt, hkt⟩
      · rintro (hm | ⟨t, ht, hpt, hkt⟩)
        · exact Or.inl hm
        · rcases List.mem_cons.mp ht with rfl | ht'
          · exact absurd ⟨hpt, hkt.symm⟩ hc
          · exact Or.inr ⟨t, ht', hpt, hkt⟩

/-- C5: with an empty configured path every returned secret's key is present
in the data-source map regardless of its path; with a non-empty path exactly
the secrets whose path equals it character-for-character contribute keys. -/
theorem dataSource_path_filter_spec (path k : String) (secrets : List Secret) :
    (path = "" →
      ((mapLookup (dataSourceMap path secrets) k).isSome ↔
        ∃ s ∈ secrets, s.key = k)) ∧
    (path ≠ "" →
      ((mapLookup (dataSourceMap path secrets) k).isSome ↔
        ∃ s ∈ secrets, s.path = path ∧ s.key = k)) := by
  constructor
  · intro hp
    rw [dataSourceMap, mapLookup_foldl_isSome_iff]
    simp [mapLookup, hp]
  · intro hp
    rw [dataSourceMap, mapLookup_foldl_isSome_iff]
    simp only [mapLookup, Option.isSome_none, Bool.false_eq_true, false_or]
    constructor
    · rintro ⟨s, hs, hps, hks⟩
      rcases hps with h | h
      · exact absurd h hp
      · exact ⟨s, hs, h, hks⟩
    · rintro ⟨s, hs, hps, hks⟩
      exact ⟨s, hs, Or.inr hps, hks⟩

/-- A secret living under path `/db`, for the C5 witness. -/
def dbSecretW : Secret :=
  { id := "1", key := "PASS", value := "p", comment := "", path := "/db",
    tags := none, version := 1, createdAt := "", updatedAt := "",
    override := none }

/-- A secret living under path `/web`, for the C5 witness. -/
def webSecretW : Secret :=
  { id := "2", key := "TOKEN", value := "t", comment := "", path := "/web",
    tags := none, version := 1, createdAt := "", updatedAt := "",
    override := none }

/-- Witness for C5: the wildcard empty path includes a key from any path,
while path `/db` includes the `/db` secret's key and excludes `/web`'s. -/
theorem dataSource_path_filter_spec_witness :
    (mapLookup (dataSourceMap "" [dbSecretW, webSecretW]) "TOKEN").isSome ∧
    (mapLookup (dataSourceMap "/db" [dbSecretW, webSecretW]) "PASS").isSome ∧
    ¬(mapLookup (dataSourceMap "/db" [dbSecretW, webSecretW]) "TOKEN").isSome :=
  ⟨((dataSource_path_filter_spec "" "TOKEN" [dbSecretW, webSecretW]).1 rfl).mpr
      ⟨webSecretW, by decide, rfl⟩,
    ((dataSource_path_filter_spec "/db" "PASS" [dbSecretW, webSecretW]).2
        (by decide)).mpr ⟨dbSecretW, by decide, rfl, rfl⟩,
    fun h =>
      by
        rcases ((dataSource_path_filter_spec "/db" "TOKEN"
          [dbSecretW, webSecretW]).2 (by decide)).mp h with ⟨s, hs, hps, hks⟩
        rcases List.mem_cons.mp hs with rfl | hs'
        · exact absurd hks (by decide)
        · rcases List.mem_cons.mp hs' with rfl | hs''
          · exact absurd hps (by decide)
          · exact absurd hs'' (List.not_mem_nil s)⟩

/-! ## Splitting and joining on a separator character -/

/-- Inverse of `splitOnChar`: re-join fields with the separator. -/
def joinSep (sep : Char) : List (List Char) → List Char
  | [] => []
  | [x] => x
  | x :: xs => x ++ sep :: joinSep sep xs

theorem splitOnChar_ne_nil (sep : Char) (s : List Char) : splitOnChar sep s ≠ [] := by
  cases s with
  | nil => simp [splitOnChar]
  | cons c cs =>
    by_cases hc : c = sep
    · simp [splitOnChar, hc]
    · cases h : splitOnChar sep cs <;> simp [splitOnChar, hc, h]

theorem splitOnChar_not_mem (sep : Char) (xs : List Char) (h : sep ∉ xs) :
    splitOnChar sep xs = [xs] := by
  induction xs with
  | nil => rfl
  | cons c cs ih =>
    have hc : ¬(c = sep) := by
      rintro rfl
      exact h (List.mem_cons_self _ _)
    have ih' := ih (fun hm => h (List.mem_cons_of_mem c hm))
    simp [splitOnChar, hc, ih']

theorem splitOnChar_append (sep : Char) (xs ys : List Char) (h : sep ∉ xs) :
    splitOnChar sep (xs ++ sep :: ys) = xs :: splitOnChar sep ys := by
  induction xs with
  | nil => simp [splitOnChar]
  | cons c cs ih =>
    have hc : ¬(c = sep) := by
      rintro rfl
      exact h (List.mem_cons_self _ _)
    have ih' := ih (fun hm => h (List.mem_cons_of_mem c hm))
    simp [splitOnChar, hc, ih']

theorem joinSep_splitOnChar (sep : Char) (s : List Char) :
    joinSep sep (splitOnChar sep s) = s := by
  induction s with
  | nil => rfl
  | cons c cs ih =>
    by_cases hc : c = sep
    · cases h : splitOnChar sep cs with
      | nil => exact absurd h (splitOnChar_ne_nil sep cs)
      | cons r0 rs =>
        rw [h] at ih
        simp [splitOnChar, hc, h, joinSep, ih]
    · cases h : splitOnChar sep cs with
      | nil => exact absurd h (splitOnChar_ne_nil sep cs)
      | cons f rest =>
        rw [h] at ih
        cases rest with
        | nil => simp [splitOnChar, hc, h, joinSep] at ih ⊢; rw [ih]
        | cons r1 rs =>
          simp [splitOnChar, hc, h, joinSep] at ih ⊢
          exact ih

/-! ## No pattern component contains the separator -/

theorem not_colon_of_isDigitChar {c : Char} (h : isDigitChar c = true) : c ≠ ':' := by
  rintro rfl
  exact absurd h (by decide)

theorem not_colon_of_isHexChar {c : Char} (h : isHexChar c = true) : c ≠ ':' := by
  rintro rfl
  exact absurd h (by decide)

theorem not_mem_colon_version {v : List Char}
    (hd : ∀ c ∈ v, isDigitChar c = true) : ':' ∉ 'v' :: v := by
  intro hm
  rcases List.mem_cons.mp hm with h | h
  · exact absurd h (by decide)
  · exact not_colon_of_isDigitChar (hd _ h) rfl

theorem not_mem_colon_hex {f : List Char} (h : isHex64 f = true) : ':' ∉ f := by
  intro hm
  unfold isHex64 at h
  rw [Bool.and_eq_true] at h
  exact not_colon_of_isHexChar (List.all_eq_true.mp h.2 _ hm) rfl

theorem splitOnChar_sixFields (f0 f1 f2 f3 f4 f5 : List Char)
    (h0 : ':' ∉ f0) (h1 : ':' ∉ f1) (h2 : ':' ∉ f2) (h3 : ':' ∉ f3)
    (h4 : ':' ∉ f4) (h5 : ':' ∉ f5) :
    splitOnChar ':' (sixFields f0 f1 f2 f3 f4 f5) = [f0, f1, f2, f3, f4, f5] := by
  unfold sixFields
  rw [splitOnChar_append _ _ _ h0, splitOnChar_append _ _ _ h1,
    splitOnChar_append _ _ _ h2, splitOnChar_append _ _ _ h3,
    splitOnChar_append _ _ _ h4, splitOnChar_not_mem _ _ h5]

theorem joinSep_six (a b c d e f : List Char) :
    joinSep ':' [a, b, c, d, e, f] = sixFields a b c d e f := rfl

/-! ## The executable matchers recognise exactly the token shapes -/

theorem splitOnChar_of_serviceParts {s v f2 f3 f4 f5 : List Char}
    (h : ServiceParts s v f2 f3 f4 f5) :
    splitOnChar ':' s = ["pss_service".data, 'v' :: v, f2, f3, f4, f5] := by
  obtain ⟨hs, _, hd, h2, h3, h4, h5⟩ := h
  rw [hs]
  exact splitOnChar_sixFields _ _ _ _ _ _ (by decide) (not_mem_colon_version hd)
    (not_mem_colon_hex h2) (not_mem_colon_hex h3) (not_mem_colon_hex h4)
    (not_mem_colon_hex h5)

theorem splitOnChar_of_userParts {s v f2 f3 f4 f5 : List Char}
    (h : UserParts s v f2 f3 f4 f5) :
    splitOnChar ':' s = ["pss_user".data, 'v' :: v, f2, f3, f4, f5] := by
  obtain ⟨hs, _, hd, h2, h3, h4, h5⟩ := h
  rw [hs]
  exact splitOnChar_sixFields _ _ _ _ _ _ (by decide) (not_mem_colon_version hd)
    (not_mem_colon_hex h2) (not_mem_colon_hex h3) (not_mem_colon_hex h4)
    (not_mem_colon_hex h5)

theorem isVersionField_v {v : List Char} (hv : v ≠ [])
    (hd : ∀ c ∈ v, isDigitChar c = true) : isVersionField ('v' :: v) = true := by
  simp [isVersionField, hv, List.all_eq_true.mpr hd]

theorem PssServicePattern_of_parts {s v f2 f3 f4 f5 : List Char}
    (h : ServiceParts s v f2 f3 f4 f5) : PssServicePattern s = true := by
  have hsplit := splitOnChar_of_serviceParts h
  obtain ⟨_, hv, hd, h2, h3, h4, h5⟩ := h
  simp [PssServicePattern, hsplit, isVersionField_v hv hd, h2, h3, h4, h5]

theorem PssUserPattern_of_parts {s v f2 f3 f4 f5 : List Char}
    (h : UserParts s v f2 f3 f4 f5) : PssUserPattern s = true := by
  have hsplit := splitOnChar_of_userParts h
  obtain ⟨_, hv, hd, h2, h3, h4, h5⟩ := h
  simp [PssUserPattern, hsplit, isVersionField_v hv hd, h2, h3, h4, h5]

theorem parts_of_PssServicePattern {s : List Char}
    (h : PssServicePattern s = true) :
    ∃ v f2 f3 f4 f5, ServiceParts s v f2 f3 f4 f5 ∧
      splitOnChar ':' s = ["pss_service".data, 'v' :: v, f2, f3, f4, f5] := by
  unfold PssServicePattern at h
  split at h
  case h_1 s0 s1 g2 g3 g4 g5 heq =>
    simp only [Bool.and_eq_true, beq_iff_eq] at h
    obtain ⟨⟨⟨⟨⟨hs0, hver⟩, hg2⟩, hg3⟩, hg4⟩, hg5⟩ := h
    cases s1 with
    | nil => exact absurd hver (by simp [isVersionField])
    | cons c ds =>
      simp only [isVersionField, Bool.and_eq_true, beq_iff_eq] at hver
      obtain ⟨⟨hcv, hne⟩, hall⟩ := hver
      subst hcv
      subst hs0
      refine ⟨ds, g2, g3, g4, g5, ⟨?_, ?_, ?_, hg2, hg3, hg4, hg5⟩, heq⟩
      · rw [← joinSep_splitOnChar ':' s, heq, joinSep_six]
      · simpa using hne
      · exact List.all_eq_true.mp hall
  case h_2 => exact absurd h (by simp)

theorem parts_of_PssUserPattern {s : List Char}
    (h : PssUserPattern s = true) :
    ∃ v f2 f3 f4 f5, UserParts s v f2 f3 f4 f5 ∧
      splitOnChar ':' s = ["pss_user".data, 'v' :: v, f2, f3, f4, f5] := by
  unfold PssUserPattern at h
  split at h
  case h_1 s0 s1 g2 g3 g4 g5 heq =>
    simp only [Bool.and_eq_true, beq_iff_eq] at h
    obtain ⟨⟨⟨⟨⟨hs0, hver⟩, hg2⟩, hg3⟩, hg4⟩, hg5⟩ := h
    cases s1 with
    | nil => exact absurd hver (by simp [isVersionField])
    | cons c ds =>
      simp only [isVersionField, Bool.and_eq_true, beq_iff_eq] at hver
      obtain ⟨⟨hcv, hne⟩, hall⟩ := hver
      subst hcv
      subst hs0
      refine ⟨ds, g2, g3, g4, g5, ⟨?_, ?_, ?_, hg2, hg3, hg4, hg5⟩, heq⟩
      · rw [← joinSep_splitOnChar ':' s, heq, joinSep_six]
      · simpa using hne
      · exact List.all_eq_true.mp hall
  case h_2 => exact absurd h (by simp)

/-! ## `extractTokenInfo` computation lemmas -/

theorem extractTokenInfo_of_serviceParts {s v f2 f3 f4 f5 : List Char}
    (h : ServiceParts s v f2 f3 f4 f5) :
    extractTokenInfo s = (if v = ['2'] then "ServiceAccount" else "Service", f2) := by
  have hsplit := splitOnChar_of_serviceParts h
  have hpat := PssServicePattern_of_parts h
  by_cases hv : v = ['2'] <;>
    simp [extractTokenInfo, hpat, hsplit, hv, List.getD]

theorem service_not_user {s v f2 f3 f4 f5 : List Char}
    (h : ServiceParts s v f2 f3 f4 f5) : PssUserPattern s = false := by
  have hsplit := splitOnChar_of_serviceParts h
  simp [PssUserPattern, hsplit]

theorem user_not_service {s v f2 f3 f4 f5 : List Char}
    (h : UserParts s v f2 f3 f4 f5) : PssServicePattern s = false := by
  have hsplit := splitOnChar_of_userParts h
  simp [PssServicePattern, hsplit]

theorem extractTokenInfo_of_userParts {s v f2 f3 f4 f5 : List Char}
    (h : UserParts s v f2 f3 f4 f5) : extractTokenInfo s = ("User", f2) := by
  have hsplit := splitOnChar_of_userParts h
  have hpat := PssUserPattern_of_parts h
  have hns := user_not_service h
  simp [extractTokenInfo, extractTokenInfoUser, hns, hpat, hsplit, List.getD]

theorem extractTokenInfo_fallback {s : List Char}
    (hs : PssServicePattern s = false) (hu : PssUserPattern s = false) :
    extractTokenInfo s = ("", s) := by
  simp [extractTokenInfo, extractTokenInfoUser, hs, hu]

/-! ## C2: the token resolver -/

/-- C2: a credential of the service-token shape resolves to kind
`ServiceAccount` when its version is `v2` and to `Service` otherwise, with
the first 64-hex field as bearer; one of the user-token shape resolves to
kind `User` with the first 64-hex field as bearer; anything matching neither
matcher resolves to the empty kind with the input itself as bearer; and the
resolver is a pure function. -/
theorem extractTokenInfo_spec (s : List Char) :
    (∀ v f2 f3 f4 f5, ServiceParts s v f2 f3 f4 f5 → v = ['2'] →
      extractTokenInfo s = ("ServiceAccount", f2)) ∧
    (∀ v f2 f3 f4 f5, ServiceParts s v f2 f3 f4 f5 → v ≠ ['2'] →
      extractTokenInfo s = ("Service", f2)) ∧
    (∀ v f2 f3 f4 f5, UserParts s v f2 f3 f4 f5 →
      extractTokenInfo s = ("User", f2)) ∧
    (PssServicePattern s = false → PssUserPattern s = false →
      extractTokenInfo s = ("", s)) ∧
    (∀ t, s = t → extractTokenInfo s = extractTokenInfo t) := by
  refine ⟨?_, ?_, ?_, extractTokenInfo_fallback, ?_⟩
  · intro v f2 f3 f4 f5 h hv
    rw [extractTokenInfo_of_serviceParts h, if_pos hv]
  · intro v f2 f3 f4 f5 h hv
    rw [extractTokenInfo_of_serviceParts h, if_neg hv]
  · intro v f2 f3 f4 f5 h
    exact extractTokenInfo_of_userParts h
  · intro t h
    rw [h]

/-- Witness for C2: the concrete well-formed `v2` service token resolves to
`ServiceAccount` with the first hex field as bearer. -/
theorem extractTokenInfo_spec_witness :
    extractTokenInfo svcTok = ("ServiceAccount", hexA) :=
  (extractTokenInfo_spec svcTok).1 ['2'] hexA hexA hexA hexA
    ⟨rfl, by decide, by decide, by decide, by decide, by decide, by decide⟩ rfl

/-! ## C3: which strings the token matchers accept -/

set_option maxRecDepth 4000 in
/-- C3 counterexample: a five-field credential of the claimed shape
— colon-separated, scheme `pss_service`, version `v`+digits, fields 3-5 being
64-character hexadecimal strings — is matched by neither pattern, and the
resolver classifies it through the fallback branch (empty kind, bearer =
input).  The matchers require exactly six fields. -/
theorem tokenPattern_fiveField_counterexample :
    PssServicePattern fiveFieldTok = false ∧
    PssUserPattern fiveFieldTok = false ∧
    extractTokenInfo fiveFieldTok = ("", fiveFieldTok) :=
  ⟨by decide, by decide, by decide⟩

/-- C3 (amended to six fields): each matcher accepts exactly the strings of
the six-field shape — six colon-separated
fields whose scheme is `pss_service` resp. `pss_user`, whose version is `v`
followed by one or more digits, and whose last four fields are 64-character
hexadecimal strings; every string of that shape is classified as a service
or user token (non-empty kind), and every string outside both shapes takes
the fallback branch. -/
theorem tokenPattern_characterization (s : List Char) :
    (PssServicePattern s = true ↔ ServiceTokenShape s) ∧
    (PssUserPattern s = true ↔ UserTokenShape s) ∧
    (ServiceTokenShape s ∨ UserTokenShape s → (extractTokenInfo s).1 ≠ "") ∧
    (¬ServiceTokenShape s ∧ ¬UserTokenShape s → extractTokenInfo s = ("", s)) := by
  refine ⟨⟨?_, ?_⟩, ⟨?_, ?_⟩, ?_, ?_⟩
  · intro h
    obtain ⟨v, f2, f3, f4, f5, hp, -⟩ := parts_of_PssServicePattern h
    exact ⟨v, f2, f3, f4, f5, hp⟩
  · rintro ⟨v, f2, f3, f4, f5, hp⟩
    exact PssServicePattern_of_parts hp
  · intro h
    obtain ⟨v, f2, f3, f4, f5, hp, -⟩ := parts_of_PssUserPattern h
    exact ⟨v, f2, f3, f4, f5, hp⟩
  · rintro ⟨v, f2, f3, f4, f5, hp⟩
    exact PssUserPattern_of_parts hp
  · rintro (⟨v, f2, f3, f4, f5, hp⟩ | ⟨v, f2, f3, f4, f5, hp⟩)
    · rw [extractTokenInfo_of_serviceParts hp]
      by_cases hv : v = ['2'] <;> simp [hv]
    · rw [extractTokenInfo_of_userParts hp]
      simp
  · rintro ⟨hs, hu⟩
    refine extractTokenInfo_fallback ?_ ?_
    · rcases hb : PssServicePattern s with _ | _
      · rfl
      · obtain ⟨v, f2, f3, f4, f5, hp, -⟩ := parts_of_PssServicePattern hb
        exact absurd ⟨v, f2, f3, f4, f5, hp⟩ hs
    · rcases hb : PssUserPattern s with _ | _
      · rfl
      · obtain ⟨v, f2, f3, f4, f5, hp, -⟩ := parts_of_PssUserPattern hb
        exact absurd ⟨v, f2, f3, f4, f5, hp⟩ hu

/-- Witness for C3: the concrete six-field service token is of the service
shape and accepted by the matcher. -/
theorem tokenPattern_characterization_witness :
    PssServicePattern svcTok = true :=
  (tokenPattern_characterization svcTok).1.mpr
    ⟨['2'], hexA, hexA, hexA, hexA,
      rfl, by decide, by decide, by decide, by decide, by decide, by decide⟩

end Phase
